import Mathlib

/-!
Shallow embedding of the burst-selection curation pipeline of
`pymms/selections.py`: the segment data model, contiguous-segment merging
(`combine_segments`), overlap deduplication (`remove_duplicate_segments`),
overlap statistics (`selection_overlap`) and CSV reading (`read_csv`).

Calendar timestamps and time deltas are modelled as integer numbers of
seconds: every constructor in this module produces whole-second
datetimes (`%Y-%m-%d %H:%M:%S` and `%Y-%m-%d-%H-%M-%S` string parsing,
and TAI conversion, which floor-divides nanoseconds into whole seconds).
The figure of merit and the percentage statistics are rationals.
Fallible operations (uncaught `IndexError`, `AttributeError`, `KeyError`,
`ValueError` from parsing, `ZeroDivisionError`) are modelled by `Option`,
with `none` standing for an uncaught exception.
-/

namespace Pymms

/-- One burst data segment (`class BurstSegment`, selections.py:14).
`file` models the submission timestamp embedded in the selection file's
name: `some t` when the segment has a file whose stem carries a parseable
trailing timestamp (the value `file_start_time` returns, selections.py:70),
`none` when the segment has no file or the timestamp cannot be parsed. -/
structure BurstSegment where
  tstart : ℤ
  tstop : ℤ
  fom : ℚ
  discussion : String
  sourceid : Option String
  file : Option ℤ
deriving DecidableEq

/-- The `taistarttime` property (selections.py:109): whole seconds since
the TAI epoch.  On the whole-second timestamps of this module the floor
division of `datetime_to_tai` (selections.py:93) is exact, so the epoch
equals the timestamp's second count. -/
def BurstSegment.taistarttime (s : BurstSegment) : ℤ := s.tstart

/-- The `taiendtime` property (selections.py:113). -/
def BurstSegment.taiendtime (s : BurstSegment) : ℤ := s.tstop

/-- The `file_start_time` method (selections.py:70): parse the trailing
timestamp out of the file name; fails (`AttributeError`/`ValueError`) when
there is no file or no parseable timestamp, which the model folds into the
`Option` value stored in `file`. -/
def BurstSegment.file_start_time (s : BurstSegment) : Option ℤ := s.file

/-- Loop body of `combine_segments` (selections.py:256-274), written as a
recursion over the precomputed tail of the list.  `icontig` is the segment
at the head of the current contiguous interval (`data[icontig]`), `last`
the most recent segment of that interval (`data[idx]`).  A next segment
continues the interval iff its gap to `last` equals `delta_t` and its
`fom` and `discussion` equal those of `icontig` (selections.py:258-262);
otherwise the interval is flushed with its `tstop` extended to `last.tstop`
(selections.py:265) and a new interval starts. -/
def combineRun (icontig last : BurstSegment) (delta_t : ℤ) :
    List BurstSegment → List BurstSegment
  | [] => [{ icontig with tstop := last.tstop }]
  | next :: rest =>
    if next.tstart - last.tstop = delta_t ∧ icontig.fom = next.fom ∧
        icontig.discussion = next.discussion then
      combineRun icontig next delta_t rest
    else
      { icontig with tstop := last.tstop } :: combineRun next next delta_t rest

/-- `combine_segments` (selections.py:233-277).  The reference routine
mutates `data` in place; the model returns the resulting list.  On an empty
list the first loop iteration evaluates `data[icontig].tstop` with
`icontig = 0` and raises an uncaught `IndexError` (selections.py:265), so
the model returns `none`.  When `delta_t` equals the sentinel gap `1000`
appended at selections.py:250, the final iteration takes the
`t_delta == delta_t` branch and evaluates `data[idx+1].fom` one past the
end of the list (selections.py:260), an uncaught `IndexError`: `none` for
every nonempty list as well. -/
def combine_segments (data : List BurstSegment) (delta_t : ℤ) :
    Option (List BurstSegment) :=
  match data with
  | [] => none
  | first :: rest =>
    if delta_t = 1000 then none
    else some (combineRun first first delta_t rest)

/-- Inner `while` loop of `remove_duplicate_segments` (selections.py:606-618)
together with the outer scan.  `first` is `data[idx]`, the segment that
opened the current overlap run; `ref` is `ref_seg`, the currently kept
segment; `t0` and `dt_ref` are `t0_ref` and `dt_ref`, computed from `first`
once per run (selections.py:602-604) and never recomputed.  A candidate `c`
belongs to the run iff `c.taistarttime - t0 < dt_ref` (selections.py:608).
Inside the run the loop evaluates `ref_seg.file_start_time()`,
`test_seg.file_start_time()` and then compares
`data[i].file_start_time() > data[idx].file_start_time()`
(selections.py:611-614) — the comparison is against `first`, not against
the current `ref` — promoting the candidate when strictly later; any of
the three calls failing is an uncaught error (`none`).  When the window
test fails, `ref` is emitted and a new run starts at `c`
(selections.py:601-604, 620). -/
def dedupLoop (first ref : BurstSegment) (t0 dt_ref : ℤ) :
    List BurstSegment → Option (List BurstSegment)
  | [] => some [ref]
  | c :: rest =>
    if c.taistarttime - t0 < dt_ref then
      ref.file.bind fun _ =>
        c.file.bind fun fstart_test =>
          first.file.bind fun fstart_first =>
            dedupLoop first (if fstart_first < fstart_test then c else ref)
              t0 dt_ref rest
    else
      (dedupLoop c c c.taistarttime (c.taiendtime - c.taistarttime) rest).map
        (fun res => ref :: res)

/-- `remove_duplicate_segments` (selections.py:578-623).  The diagnostic
`print` of the overlap count (selections.py:622) is a side effect with no
bearing on the result and is not modelled. -/
def remove_duplicate_segments : List BurstSegment → Option (List BurstSegment)
  | [] => some []
  | first :: rest =>
    dedupLoop first first first.taistarttime
      (first.taiendtime - first.taistarttime) rest

/-- The submission timestamp of a segment, defaulting to `0`; only ever
used under the hypothesis that the timestamp is present. -/
def fileTimeD (s : BurstSegment) : ℤ := s.file.getD 0

/-- Membership test of the deduplication overlap window: the candidate's
start epoch lies strictly within the duration window of the run's first
segment (selections.py:608). -/
def inWindow (first c : BurstSegment) : Bool :=
  decide (c.taistarttime - first.taistarttime <
    first.taiendtime - first.taistarttime)

/-- Spec-side characterisation of the survivor of one overlap run: the last
segment of the run whose submission timestamp is strictly later than that
of the run's **first** segment, or the first segment itself when no
candidate is later. -/
def keptSurvivor (first : BurstSegment) (run : List BurstSegment) :
    BurstSegment :=
  ((run.filter
      (fun c => decide (fileTimeD first < fileTimeD c))).getLast?).getD
    first

/-- Spec-side deduplication, for comparison with
`remove_duplicate_segments`: split the sorted list into maximal overlap
runs gated by the window of each run's first segment and keep one survivor
per run, as characterised by `keptSurvivor`. -/
def dedupSpec : List BurstSegment → List BurstSegment
  | [] => []
  | first :: rest =>
    keptSurvivor first (rest.takeWhile (inWindow first)) ::
      dedupSpec (rest.dropWhile (inWindow first))
termination_by l => l.length
decreasing_by
  simpa [Nat.lt_succ_iff] using (List.dropWhile_sublist _).length_le

/-- Result record of `selection_overlap` (the `out` dict,
selections.py:627-634), with time deltas in integer seconds and
percentages as rationals. -/
structure OverlapStats where
  dt : ℤ
  dt_next : ℤ
  n_selections : ℕ
  t_overlap : ℤ
  t_overselect : ℤ
  pct_overlap : ℚ
  pct_overselect : ℚ
deriving DecidableEq

/-- Body of the `for test in tests` loop of `selection_overlap`
(selections.py:638-649) acting on the accumulator
`(n_selections, t_overlap, dt_next)`. -/
def overlapStep (ref : BurstSegment) (acc : ℕ × ℤ × ℤ)
    (test : BurstSegment) : ℕ × ℤ × ℤ :=
  let acc2 :=
    if test.tstart ≤ ref.tstop ∧ ref.tstart ≤ test.tstop then
      (acc.1 + 1,
       acc.2.1 + (min test.tstop ref.tstop - max test.tstart ref.tstart),
       acc.2.2)
    else acc
  (acc2.1, acc2.2.1, min acc2.2.2 |test.tstart - ref.tstart|)

/-- Finalisation of the `out` dict of `selection_overlap`
(selections.py:652-658) from the loop accumulator
`(n_selections, t_overlap, dt_next)`.  In the `n_selections > 0` branch
the percentages divide by `dt`; a zero `dt` is a `ZeroDivisionError` in
the reference, modelled as `none`. -/
def overlapFinish (ref : BurstSegment) (acc : ℕ × ℤ × ℤ) :
    Option OverlapStats :=
  if 0 < acc.1 then
    if ref.tstop - ref.tstart = 0 then none
    else
      some { dt := ref.tstop - ref.tstart, dt_next := acc.2.2,
             n_selections := acc.1, t_overlap := acc.2.1,
             t_overselect := ref.tstop - ref.tstart - acc.2.1,
             pct_overlap :=
               (acc.2.1 : ℚ) / ((ref.tstop - ref.tstart : ℤ) : ℚ) * 100,
             pct_overselect :=
               ((ref.tstop - ref.tstart - acc.2.1 : ℤ) : ℚ)
                 / ((ref.tstop - ref.tstart : ℤ) : ℚ) * 100 }
  else
    some { dt := ref.tstop - ref.tstart, dt_next := acc.2.2,
           n_selections := acc.1, t_overlap := acc.2.1,
           t_overselect := ref.tstop - ref.tstart,
           pct_overlap := 0, pct_overselect := 100 }

/-- `selection_overlap` (selections.py:626-660).  `dt_next` is initialised
to a 7000-day sentinel (selections.py:628, in seconds), `n_selections` and
`t_overlap` to zero. -/
def selection_overlap (ref : BurstSegment) (tests : List BurstSegment) :
    Option OverlapStats :=
  overlapFinish ref (tests.foldl (overlapStep ref) (0, 0, 7000 * 86400))

/-- One CSV cell, carried as its raw text together with what the external
codecs yield on it: `asTime` is the result of
`datetime.strptime(raw, fmt)` (decoded to seconds, `none` on
`ValueError`), `asFloat` the result of `float(raw)`. -/
structure CsvCell where
  raw : String
  asTime : Option ℤ
  asFloat : Option ℚ
deriving DecidableEq

def startTimeKey : String := "start_time"

def stopTimeKey : String := "stop_time"

def fomKey : String := "fom"

def discussionKey : String := "discussion"

/-- The `required_keys` tuple of `read_csv` (selections.py:530), also used
as the assumed column names when the file has no header row. -/
def requiredKeys : List String :=
  [startTimeKey, stopTimeKey, fomKey, discussionKey]

/-- Processing of one CSV data row (selections.py:547-573).  The result is
`none` for an uncaught error (`KeyError` on a missing column, `ValueError`
from `strptime`/`float`), `some none` when the row is filtered out by the
time bounds (`continue`), and `some (some seg)` when a segment is built.
Note the reference defect at selections.py:557: the `stop_time` filter
parses the `start_time` column.  Extra columns attached via `setattr`
(selections.py:570-571) play no role in the segment semantics and are not
modelled. -/
def processRow (hdr : List String) (row : List CsvCell)
    (start_time stop_time : Option ℤ) (file_time : Option ℤ) :
    Option (Option BurstSegment) := do
  let d := List.zip hdr row
  if let some stv := start_time then
    let cell ← List.lookup startTimeKey d
    let tstartf ← cell.asTime
    if tstartf < stv then
      return none
  if let some spv := stop_time then
    let cell ← List.lookup startTimeKey d
    let tstopf ← cell.asTime
    if spv < tstopf then
      return none
  let c1 ← List.lookup startTimeKey d
  let c2 ← List.lookup stopTimeKey d
  let c3 ← List.lookup fomKey d
  let c4 ← List.lookup discussionKey d
  let tstartv ← c1.asTime
  let tstopv ← c2.asTime
  let fomv ← c3.asFloat
  return some ⟨tstartv, tstopv, fomv, c4.raw, none, file_time⟩

/-- The row loop of `read_csv` (selections.py:547-573): rows are processed
in order, filtered-out rows are skipped, any uncaught error aborts the
read. -/
def readRows (hdr : List String) (start_time stop_time : Option ℤ)
    (file_time : Option ℤ) :
    List (List CsvCell) → Option (List BurstSegment)
  | [] => some []
  | row :: rest => do
    let r ← processRow hdr row start_time stop_time file_time
    let tail ← readRows hdr start_time stop_time file_time rest
    match r with
    | none => return tail
    | some seg => return seg :: tail

/-- `read_csv` (selections.py:495-575).  The file is modelled as its header
row (a list of column names, consumed only when `header` is true) and its
data rows; `file_time` is the submission timestamp embedded in the given
file name, stored on each produced segment.  The required-keys check at
selections.py:540-542 constructs `ValueError(...)` but never raises it, so
it has no effect on the result and contributes nothing to the model. -/
def read_csv (header_row : List String) (rows : List (List CsvCell))
    (start_time stop_time : Option ℤ) (header : Bool)
    (file_time : Option ℤ) : Option (List BurstSegment) :=
  let hdr := if header then header_row else requiredKeys
  readRows hdr start_time stop_time file_time rows

/-! ### Merge Stage lemmas -/

/-- A list forms one mergeable run after `first`: each adjacent gap is
exactly `delta_t` and every member carries the run leader's score and
justification. -/
def mergeRun (first : BurstSegment) (delta_t : ℤ)
    (rest : List BurstSegment) : Prop :=
  List.Chain (fun a b => b.tstart - a.tstop = delta_t) first rest ∧
    ∀ s ∈ rest, first.fom = s.fom ∧ first.discussion = s.discussion

theorem combineRun_of_chain (delta_t : ℤ) (rest : List BurstSegment) :
    ∀ icontig last : BurstSegment,
      List.Chain (fun a b => b.tstart - a.tstop = delta_t) last rest →
      (∀ s ∈ rest, icontig.fom = s.fom ∧ icontig.discussion = s.discussion) →
      combineRun icontig last delta_t rest
        = [{ icontig with tstop := (rest.getLastD last).tstop }] := by
  induction rest with
  | nil => intro i l _ _; rfl
  | cons next rest ih =>
    intro i l hchain hsame
    rw [List.chain_cons] at hchain
    have hfd := hsame next (List.mem_cons_self _ _)
    simp only [combineRun]
    rw [if_pos ⟨hchain.1, hfd.1, hfd.2⟩, List.getLastD_cons]
    exact ih i next hchain.2 fun s hs => hsame s (List.mem_cons_of_mem _ hs)

theorem chain_getLastD_duration (delta_t : ℤ) (rest : List BurstSegment) :
    ∀ last : BurstSegment,
      List.Chain (fun a b => b.tstart - a.tstop = delta_t) last rest →
      (rest.getLastD last).tstop - last.tstart
        = ((last :: rest).map (fun s => s.tstop - s.tstart)).sum
            + (rest.length : ℤ) * delta_t := by
  induction rest with
  | nil => intro last _; simp
  | cons next rest ih =>
    intro last hchain
    rw [List.chain_cons] at hchain
    have h2 := ih next hchain.2
    have hg := hchain.1
    rw [List.getLastD_cons]
    simp only [List.map_cons, List.sum_cons, List.length_cons] at h2 ⊢
    push_cast
    linarith

/-- Two adjacent segments are not mergeable: the contiguity test of
selections.py:258-261 fails for them. -/
def noMergeRel (delta_t : ℤ) (a b : BurstSegment) : Prop :=
  ¬(b.tstart - a.tstop = delta_t ∧ a.fom = b.fom ∧
      a.discussion = b.discussion)

theorem combineRun_head_eq (delta_t : ℤ) (rest : List BurstSegment) :
    ∀ icontig last : BurstSegment, ∃ q tl,
      combineRun icontig last delta_t rest
        = { icontig with tstop := q } :: tl := by
  induction rest with
  | nil => intro i l; exact ⟨l.tstop, [], rfl⟩
  | cons next rest ih =>
    intro i l
    by_cases h : next.tstart - l.tstop = delta_t ∧ i.fom = next.fom ∧
        i.discussion = next.discussion
    · simp only [combineRun]
      rw [if_pos h]
      exact ih i next
    · simp only [combineRun]
      rw [if_neg h]
      exact ⟨l.tstop, _, rfl⟩

theorem combineRun_chain' (delta_t : ℤ) (rest : List BurstSegment) :
    ∀ icontig last : BurstSegment,
      List.Chain' (noMergeRel delta_t)
        (combineRun icontig last delta_t rest) := by
  induction rest with
  | nil => intro i l; exact List.chain'_singleton _
  | cons next rest ih =>
    intro i l
    by_cases h : next.tstart - l.tstop = delta_t ∧ i.fom = next.fom ∧
        i.discussion = next.discussion
    · simp only [combineRun]
      rw [if_pos h]
      exact ih i next
    · simp only [combineRun]
      rw [if_neg h]
      obtain ⟨q, tl, heq⟩ := combineRun_head_eq delta_t rest next next
      rw [heq]
      refine List.chain'_cons.2 ⟨fun hc => h ⟨hc.1, hc.2.1, hc.2.2⟩, ?_⟩
      rw [← heq]
      exact ih next next

theorem combineRun_fix (delta_t : ℤ) (l : List BurstSegment) :
    ∀ leader : BurstSegment,
      List.Chain' (noMergeRel delta_t) (leader :: l) →
      combineRun leader leader delta_t l = leader :: l := by
  induction l with
  | nil => intro leader _; rfl
  | cons b l ih =>
    intro leader hch
    rw [List.chain'_cons] at hch
    simp only [combineRun]
    rw [if_neg hch.1, ih b hch.2]

/-! ### Claim theorems: Merge Stage -/

/-- C2: the claim states that `combine_segments` on the empty list
terminates normally and leaves it empty; in the reference the very first
loop iteration evaluates `data[icontig].tstop` on the empty list and
raises an uncaught `IndexError` (selections.py:265), so the model yields
`none` for every `delta_t`. -/
theorem combine_segments_empty_raises (delta_t : ℤ) :
    combine_segments [] delta_t = none := rfl

def segL : BurstSegment := ⟨0, 1, 5, "x", none, none⟩

def segR : BurstSegment := ⟨11, 12, 5, "x", none, none⟩

def segLR : BurstSegment := ⟨0, 12, 5, "x", none, none⟩

/-- C3 counterexample: with `expected_gap = 10` the run
`[0,1], [11,12]` (equal score and justification, gap exactly 10) collapses
into the single segment `[0,12]`, whose duration 12 differs from the total
covered time 1 + 1 = 2: conservation fails whenever the gap is nonzero. -/
theorem combine_segments_conservation_fails :
    combine_segments [segL, segR] 10 = some [segLR] ∧
      ¬(segLR.tstop - segLR.tstart
          = (segL.tstop - segL.tstart) + (segR.tstop - segR.tstart)) := by
  decide

/-- C3 (amended): collapsing a mergeable run (adjacent gaps exactly
`expected_gap`, score and justification equal to the run leader's) yields
one segment spanning the leader's start to the last member's stop, and —
provided `expected_gap` differs from the internal sentinel gap 1000 —
the merged duration equals the total covered time `Σ (stop - start)`
**plus** `(run length - 1) · expected_gap`; the claim's plain conservation
therefore holds exactly for `expected_gap = 0` or singleton runs. -/
theorem combine_segments_run_duration (first : BurstSegment)
    (rest : List BurstSegment) (delta_t : ℤ) (hs : delta_t ≠ 1000)
    (hrun : mergeRun first delta_t rest) :
    combine_segments (first :: rest) delta_t
        = some [{ first with tstop := (rest.getLastD first).tstop }] ∧
      ({ first with tstop := (rest.getLastD first).tstop } :
            BurstSegment).tstop
          - ({ first with tstop := (rest.getLastD first).tstop } :
            BurstSegment).tstart
        = ((first :: rest).map (fun s => s.tstop - s.tstart)).sum
            + (rest.length : ℤ) * delta_t := by
  constructor
  · simp only [combine_segments]
    rw [if_neg hs, combineRun_of_chain delta_t rest first first hrun.1 hrun.2]
  · simpa using chain_getLastD_duration delta_t rest first hrun.1

def segM0 : BurstSegment := ⟨0, 1, 5, "x", none, none⟩

def segM1 : BurstSegment := ⟨1, 2, 5, "x", none, none⟩

/-- Witness for C3 (amended) at the concrete run `[0,1], [1,2]` with
`expected_gap = 0`. -/
theorem combine_segments_run_duration_witness :
    ((0 : ℤ) ≠ 1000 ∧ mergeRun segM0 0 [segM1]) ∧
      (combine_segments [segM0, segM1] 0
          = some [{ segM0 with tstop := ([segM1].getLastD segM0).tstop }] ∧
        ({ segM0 with tstop := ([segM1].getLastD segM0).tstop } :
              BurstSegment).tstop
            - ({ segM0 with tstop := ([segM1].getLastD segM0).tstop } :
              BurstSegment).tstart
          = (([segM0, segM1]).map (fun s => s.tstop - s.tstart)).sum
              + (([segM1] : List BurstSegment).length : ℤ) * 0) := by
  have h0 : (0 : ℤ) ≠ 1000 := by decide
  have h1 : mergeRun segM0 0 [segM1] := by
    constructor
    · exact List.Chain.cons (by decide) List.Chain.nil
    · intro s hs
      rw [List.mem_singleton] at hs
      subst hs
      exact ⟨rfl, rfl⟩
  exact ⟨⟨h0, h1⟩, combine_segments_run_duration segM0 [segM1] 0 h0 h1⟩

/-- C5: running the Merge Stage a second time on the output of a first run
changes nothing — adjacent output segments always fail the contiguity
test, because each output segment keeps its run leader's start, score and
justification and its run's last stop. -/
theorem combine_segments_idempotent (data out : List BurstSegment)
    (delta_t : ℤ)
    (hsorted : List.Sorted (fun a b => a.tstart ≤ b.tstart) data)
    (h : combine_segments data delta_t = some out) :
    combine_segments out delta_t = some out := by
  match data with
  | [] => exact absurd h (by simp [combine_segments])
  | first :: rest =>
    simp only [combine_segments] at h
    by_cases hs : delta_t = 1000
    · rw [if_pos hs] at h
      exact absurd h (by simp)
    · rw [if_neg hs] at h
      have hout : combineRun first first delta_t rest = out :=
        Option.some.inj h
      obtain ⟨q, tl, heq⟩ := combineRun_head_eq delta_t rest first first
      have hchain := combineRun_chain' delta_t rest first first
      rw [hout] at heq hchain
      rw [heq]
      simp only [combine_segments]
      rw [if_neg hs, combineRun_fix delta_t tl { first with tstop := q }
        (heq ▸ hchain)]

def segI0 : BurstSegment := ⟨0, 1, 5, "x", none, none⟩

def segI1 : BurstSegment := ⟨1, 2, 5, "x", none, none⟩

/-- Witness for C5 at the concrete sorted input `[0,1], [1,2]` with
`expected_gap = 0` (the two segments merge, and a second pass leaves the
merged list unchanged). -/
theorem combine_segments_idempotent_witness :
    (List.Sorted (fun a b : BurstSegment => a.tstart ≤ b.tstart)
        [segI0, segI1] ∧
      combine_segments [segI0, segI1] 0
        = some [⟨0, 2, 5, "x", none, none⟩]) ∧
      combine_segments [(⟨0, 2, 5, "x", none, none⟩ : BurstSegment)] 0
        = some [⟨0, 2, 5, "x", none, none⟩] := by
  have h1 : List.Sorted (fun a b : BurstSegment => a.tstart ≤ b.tstart)
      [segI0, segI1] := by decide
  have h2 : combine_segments [segI0, segI1] 0
      = some [⟨0, 2, 5, "x", none, none⟩] := by decide
  exact ⟨⟨h1, h2⟩,
    combine_segments_idempotent [segI0, segI1] _ 0 h1 h2⟩

/-! ### Deduplication Stage lemmas -/

theorem foldl_promote_eq (first : BurstSegment) (run : List BurstSegment) :
    ∀ r : BurstSegment,
      run.foldl (fun r c => if fileTimeD first < fileTimeD c then c else r) r
        = ((run.filter
            (fun c => decide (fileTimeD first < fileTimeD c))).getLast?).getD
            r := by
  induction run with
  | nil => intro r; rfl
  | cons c run ih =>
    intro r
    rw [List.foldl_cons, List.filter_cons]
    by_cases hp : fileTimeD first < fileTimeD c
    · rw [if_pos hp, ih c, if_pos (by simpa using hp)]
      cases hfl : run.filter (fun c => decide (fileTimeD first < fileTimeD c))
        with
      | nil => simp
      | cons x xs =>
        rw [List.getLast?_cons_cons]
        obtain ⟨y, hy⟩ := Option.isSome_iff_exists.1
          (List.getLast?_isSome.2 (List.cons_ne_nil x xs))
        rw [hy]
        rfl
    · rw [if_neg hp, ih r, if_neg (by simpa using hp)]

theorem dedupLoop_run (first : BurstSegment) (hf : first.file.isSome)
    (rest : List BurstSegment) :
    ∀ ref : BurstSegment, ref.file.isSome →
      (∀ c ∈ rest, c.file.isSome) →
      dedupLoop first ref first.taistarttime
          (first.taiendtime - first.taistarttime) rest
        = (remove_duplicate_segments
              (rest.dropWhile (inWindow first))).map
            (fun tl =>
              ((rest.takeWhile (inWindow first)).foldl
                  (fun r c => if fileTimeD first < fileTimeD c then c else r)
                  ref) :: tl) := by
  induction rest with
  | nil =>
    intro ref _ _
    simp [dedupLoop, remove_duplicate_segments]
  | cons c rest ih =>
    intro ref href hcs
    obtain ⟨ft, hft⟩ := Option.isSome_iff_exists.1 hf
    obtain ⟨rt, hrt⟩ := Option.isSome_iff_exists.1 href
    obtain ⟨ct, hct⟩ := Option.isSome_iff_exists.1
      (hcs c (List.mem_cons_self _ _))
    by_cases hw : c.taistarttime - first.taistarttime <
        first.taiendtime - first.taistarttime
    · have hwin : inWindow first c = true := by simp [inWindow, hw]
      simp only [dedupLoop]
      rw [if_pos hw, hrt, hct, hft]
      simp only [Option.some_bind]
      have hnew : (if ft < ct then c else ref).file.isSome := by
        by_cases hlt : ft < ct
        · simp [hlt, hct]
        · simp [hlt, hrt]
      rw [ih (if ft < ct then c else ref) hnew
          (fun u hu => hcs u (List.mem_cons_of_mem _ hu))]
      rw [List.takeWhile_cons, List.dropWhile_cons, if_pos hwin,
        if_pos hwin, List.foldl_cons]
      have harg : (if fileTimeD first < fileTimeD c then c else ref)
          = if ft < ct then c else ref := by
        simp [fileTimeD, hft, hct]
      rw [harg]
    · have hwin : inWindow first c = false := by simp [inWindow, hw]
      simp only [dedupLoop]
      rw [if_neg hw, List.takeWhile_cons, List.dropWhile_cons,
        if_neg (by simp [hwin]), if_neg (by simp [hwin])]
      rfl

theorem remove_duplicate_aux (n : ℕ) :
    ∀ data : List BurstSegment, data.length ≤ n →
      (∀ c ∈ data, c.file.isSome) →
      remove_duplicate_segments data = some (dedupSpec data) := by
  induction n with
  | zero =>
    intro data hlen _
    rw [List.length_eq_zero.1 (Nat.le_zero.1 hlen)]
    simp [remove_duplicate_segments, dedupSpec]
  | succ n ih =>
    intro data hlen hfiles
    match data with
    | [] => simp [remove_duplicate_segments, dedupSpec]
    | first :: rest =>
      have hf : first.file.isSome := hfiles first (List.mem_cons_self _ _)
      have hrest : ∀ c ∈ rest, c.file.isSome :=
        fun c hc => hfiles c (List.mem_cons_of_mem _ hc)
      have hlen2 : (rest.dropWhile (inWindow first)).length ≤ n :=
        le_trans (List.dropWhile_sublist (inWindow first)).length_le
          (Nat.succ_le_succ_iff.1 hlen)
      simp only [remove_duplicate_segments]
      rw [dedupLoop_run first hf rest first hf hrest,
        ih (rest.dropWhile (inWindow first)) hlen2
          (fun c hc =>
            hrest c ((List.dropWhile_sublist (inWindow first)).subset hc)),
        Option.map_some',
        foldl_promote_eq first (rest.takeWhile (inWindow first)) first]
      conv_rhs => rw [dedupSpec]
      rfl

/-! ### Claim theorems: Deduplication Stage -/

def segD0 : BurstSegment := ⟨0, 100, 5, "x", none, some 0⟩

def segD1 : BurstSegment := ⟨1, 100, 5, "x", none, some 5⟩

def segD2 : BurstSegment := ⟨2, 100, 5, "x", none, some 3⟩

/-- C1 counterexample: the start-sorted segments `segD0`, `segD1`, `segD2`
form a single overlap run (both later starts lie strictly inside
`segD0`'s duration window), the latest submission timestamp in the run is
5 (`segD1`), yet deduplication keeps `segD2`, whose timestamp is 3 —
because each candidate is compared against the run's *first* segment
(selections.py:614), not against the currently kept one, the survivor is
the last candidate later than the first segment, not the latest. -/
theorem remove_duplicate_not_latest :
    List.Sorted (fun a b : BurstSegment => a.tstart ≤ b.tstart)
        [segD0, segD1, segD2] ∧
      segD1.taistarttime - segD0.taistarttime
          < segD0.taiendtime - segD0.taistarttime ∧
      segD2.taistarttime - segD0.taistarttime
          < segD0.taiendtime - segD0.taistarttime ∧
      segD1.file_start_time = some 5 ∧
      segD2.file_start_time = some 3 ∧
      remove_duplicate_segments [segD0, segD1, segD2] = some [segD2] := by
  decide

/-- C1 (amended): on a start-sorted list whose segments all carry a
submission timestamp, deduplication keeps exactly one survivor per
overlap run (runs are gated by the duration window of the run's first
segment): the last segment of the run whose submission timestamp is
strictly later than the *first* segment's, or the first segment itself if
none is later.  In particular, for two overlapping segments with
timestamps `T1 < T2` the survivor is the one with `T2`. -/
theorem remove_duplicate_segments_keeps_spec (data : List BurstSegment)
    (hsorted : List.Sorted (fun a b => a.tstart ≤ b.tstart) data)
    (hfiles : ∀ c ∈ data, c.file.isSome) :
    remove_duplicate_segments data = some (dedupSpec data) :=
  remove_duplicate_aux data.length data le_rfl hfiles

def segP0 : BurstSegment := ⟨0, 10, 5, "x", none, some 1⟩

def segP1 : BurstSegment := ⟨3, 12, 5, "x", none, some 2⟩

/-- Witness for C1 (amended) at two overlapping segments with submission
timestamps 1 < 2. -/
theorem remove_duplicate_keeps_spec_witness :
    (List.Sorted (fun a b : BurstSegment => a.tstart ≤ b.tstart)
        [segP0, segP1] ∧
      ∀ c ∈ [segP0, segP1], c.file.isSome) ∧
      remove_duplicate_segments [segP0, segP1]
        = some (dedupSpec [segP0, segP1]) := by
  have h1 : List.Sorted (fun a b : BurstSegment => a.tstart ≤ b.tstart)
      [segP0, segP1] := by decide
  have h2 : ∀ c ∈ [segP0, segP1], c.file.isSome := by decide
  exact ⟨⟨h1, h2⟩,
    remove_duplicate_segments_keeps_spec [segP0, segP1] h1 h2⟩

/-- C4: the overlap window of a deduplication run is fixed by the run's
original first segment: even when a later-submitted candidate `s1`
replaces it as the kept reference, a subsequent candidate `s2` is still
tested against the original window — here `s2` lies outside `s0`'s window
(so it starts a new run and survives separately) although it lies strictly
inside the replacement `s1`'s own duration window. -/
theorem dedup_window_not_recomputed (s0 s1 s2 : BurstSegment)
    (t0f t1f t2f : ℤ)
    (h0 : s0.file = some t0f) (h1 : s1.file = some t1f)
    (h2 : s2.file = some t2f) (hlater : t0f < t1f)
    (hin : s1.taistarttime - s0.taistarttime
        < s0.taiendtime - s0.taistarttime)
    (hout : ¬(s2.taistarttime - s0.taistarttime
        < s0.taiendtime - s0.taistarttime))
    (hin2 : s2.taistarttime - s1.taistarttime
        < s1.taiendtime - s1.taistarttime) :
    remove_duplicate_segments [s0, s1, s2] = some [s1, s2] := by
  simp only [remove_duplicate_segments, dedupLoop]
  rw [if_pos hin, h0, h1]
  simp only [Option.some_bind]
  rw [if_pos hlater, if_neg hout]
  rfl

def segW0 : BurstSegment := ⟨0, 10, 5, "x", none, some 0⟩

def segW1 : BurstSegment := ⟨5, 100, 5, "x", none, some 1⟩

def segW2 : BurstSegment := ⟨12, 20, 5, "x", none, some 0⟩

/-- Witness for C4: `segW1` starts inside `segW0`'s window and is
later-submitted; `segW2` starts outside `segW0`'s window but inside
`segW1`'s; the output keeps both `segW1` and `segW2`. -/
theorem dedup_window_not_recomputed_witness :
    (segW0.file = some 0 ∧ segW1.file = some 1 ∧ segW2.file = some 0 ∧
      (0 : ℤ) < 1 ∧
      segW1.taistarttime - segW0.taistarttime
          < segW0.taiendtime - segW0.taistarttime ∧
      ¬(segW2.taistarttime - segW0.taistarttime
          < segW0.taiendtime - segW0.taistarttime) ∧
      segW2.taistarttime - segW1.taistarttime
          < segW1.taiendtime - segW1.taistarttime) ∧
      remove_duplicate_segments [segW0, segW1, segW2]
        = some [segW1, segW2] := by
  refine ⟨⟨rfl, rfl, rfl, by decide, by decide, by decide, by decide⟩, ?_⟩
  exact dedup_window_not_recomputed segW0 segW1 segW2 0 1 0 rfl rfl rfl
    (by decide) (by decide) (by decide) (by decide)

/-! ### Overlap Statistics lemmas -/

theorem foldl_no_overlap (ref : BurstSegment) (tests : List BurstSegment)
    (h : ∀ t ∈ tests, ¬(t.tstart ≤ ref.tstop ∧ ref.tstart ≤ t.tstop)) :
    ∀ acc : ℕ × ℤ × ℤ,
      (tests.foldl (overlapStep ref) acc).1 = acc.1 ∧
        (tests.foldl (overlapStep ref) acc).2.1 = acc.2.1 := by
  induction tests with
  | nil => intro acc; exact ⟨rfl, rfl⟩
  | cons t ts ih =>
    intro acc
    rw [List.foldl_cons]
    have hstep : overlapStep ref acc t
        = (acc.1, acc.2.1, min acc.2.2 |t.tstart - ref.tstart|) := by
      simp only [overlapStep, if_neg (h t (List.mem_cons_self _ _))]
    rw [hstep]
    exact ih (fun u hu => h u (List.mem_cons_of_mem _ hu)) _

/-! ### Claim theorems: Overlap Statistics -/

/-- C6: when no candidate overlaps the reference
(`candidate.start <= ref.stop and candidate.stop >= ref.start` fails for
every candidate), `selection_overlap` takes the `else` branch of
selections.py:656-658 without error: zero selections, zero percent
overlap, one hundred percent over-selection, and an over-selected time
equal to the reference's full duration. -/
theorem selection_overlap_no_overlap (ref : BurstSegment)
    (tests : List BurstSegment)
    (h : ∀ t ∈ tests, ¬(t.tstart ≤ ref.tstop ∧ ref.tstart ≤ t.tstop)) :
    ∃ s, selection_overlap ref tests = some s ∧
      s.n_selections = 0 ∧ s.pct_overlap = 0 ∧ s.pct_overselect = 100 ∧
      s.t_overselect = ref.tstop - ref.tstart := by
  have hfold := foldl_no_overlap ref tests h (0, 0, 7000 * 86400)
  have hmain : selection_overlap ref tests
      = some { dt := ref.tstop - ref.tstart,
               dt_next :=
                 (tests.foldl (overlapStep ref) (0, 0, 7000 * 86400)).2.2,
               n_selections :=
                 (tests.foldl (overlapStep ref) (0, 0, 7000 * 86400)).1,
               t_overlap :=
                 (tests.foldl (overlapStep ref) (0, 0, 7000 * 86400)).2.1,
               t_overselect := ref.tstop - ref.tstart,
               pct_overlap := 0, pct_overselect := 100 } := by
    simp only [selection_overlap, overlapFinish]
    rw [if_neg (by rw [hfold.1]; exact lt_irrefl 0)]
  exact ⟨_, hmain, hfold.1, rfl, rfl, rfl⟩

/-- Witness for C6: a reference `[0,10]` and a single disjoint candidate
`[20,30]`. -/
theorem selection_overlap_no_overlap_witness :
    (∀ t ∈ [(⟨20, 30, 5, "x", none, none⟩ : BurstSegment)],
        ¬(t.tstart ≤ (⟨0, 10, 5, "x", none, none⟩ : BurstSegment).tstop ∧
          (⟨0, 10, 5, "x", none, none⟩ : BurstSegment).tstart ≤ t.tstop)) ∧
      ∃ s, selection_overlap (⟨0, 10, 5, "x", none, none⟩ : BurstSegment)
            [(⟨20, 30, 5, "x", none, none⟩ : BurstSegment)] = some s ∧
        s.n_selections = 0 ∧ s.pct_overlap = 0 ∧ s.pct_overselect = 100 ∧
        s.t_overselect =
          (⟨0, 10, 5, "x", none, none⟩ : BurstSegment).tstop -
            (⟨0, 10, 5, "x", none, none⟩ : BurstSegment).tstart := by
  have h : ∀ t ∈ [(⟨20, 30, 5, "x", none, none⟩ : BurstSegment)],
      ¬(t.tstart ≤ (⟨0, 10, 5, "x", none, none⟩ : BurstSegment).tstop ∧
        (⟨0, 10, 5, "x", none, none⟩ : BurstSegment).tstart ≤ t.tstop) := by
    decide
  exact ⟨h, selection_overlap_no_overlap _ _ h⟩

/-- C9 (implicit): under exact rational arithmetic the two percentages
returned by `selection_overlap` always sum to 100 — in the overlapping
branch because `t_overselect = dt - t_overlap` and both are divided by the
same positive `dt`, in the zero-overlap branch because they are the
constants 0 and 100.  The reference segment's duration is positive by the
data-model invariant `start < stop` (a zero duration would be a
`ZeroDivisionError` in the overlapping branch). -/
theorem selection_overlap_pct_total (ref : BurstSegment)
    (tests : List BurstSegment) (h : ref.tstart < ref.tstop) :
    ∃ s, selection_overlap ref tests = some s ∧
      s.pct_overlap + s.pct_overselect = 100 := by
  have hdt : ref.tstop - ref.tstart ≠ 0 := by
    intro h0
    exact absurd (by linarith : ref.tstop ≤ ref.tstart) (not_le.2 h)
  simp only [selection_overlap, overlapFinish]
  by_cases hn :
      0 < (tests.foldl (overlapStep ref) (0, 0, 7000 * 86400)).1
  · rw [if_pos hn, if_neg hdt]
    refine ⟨_, rfl, ?_⟩
    have hq : (ref.tstop : ℚ) - (ref.tstart : ℚ) ≠ 0 := by
      exact_mod_cast hdt
    push_cast
    field_simp
    ring
  · rw [if_neg hn]
    exact ⟨_, rfl, by norm_num⟩

/-- Witness for C9 at a reference `[0,10]` with one fully overlapping
candidate and one empty candidate case folded in via the same list. -/
theorem selection_overlap_pct_total_witness :
    ((⟨0, 10, 5, "x", none, none⟩ : BurstSegment).tstart
        < (⟨0, 10, 5, "x", none, none⟩ : BurstSegment).tstop) ∧
      ∃ s, selection_overlap (⟨0, 10, 5, "x", none, none⟩ : BurstSegment)
            [(⟨2, 4, 5, "x", none, none⟩ : BurstSegment)] = some s ∧
        s.pct_overlap + s.pct_overselect = 100 := by
  have h : (⟨0, 10, 5, "x", none, none⟩ : BurstSegment).tstart
      < (⟨0, 10, 5, "x", none, none⟩ : BurstSegment).tstop := by decide
  exact ⟨h, selection_overlap_pct_total _ _ h⟩

/-- C10 (implicit): on an empty candidate list `selection_overlap` returns
without error; the loop never runs, so `dt_next` keeps its 7000-day
initialisation sentinel (in seconds), `n_selections` is 0, `t_overlap` is
0, and the zero-overlap branch fills in the remaining fields. -/
theorem selection_overlap_empty_candidates (ref : BurstSegment) :
    selection_overlap ref []
      = some { dt := ref.tstop - ref.tstart, dt_next := 7000 * 86400,
               n_selections := 0, t_overlap := 0,
               t_overselect := ref.tstop - ref.tstart,
               pct_overlap := 0, pct_overselect := 100 } := rfl

/-! ### Claim theorems: CSV reading -/

def cellStart : CsvCell := ⟨"2020-01-01 00:00:00", some 0, none⟩

def cellStop : CsvCell := ⟨"2020-01-01 00:03:20", some 200, none⟩

def cellFom : CsvCell := ⟨"5.0", none, some 5⟩

def cellDisc : CsvCell := ⟨"selected", none, none⟩

/-- C7 counter-evidence: a row whose `stop_time` column decodes to 200,
read with a `stop_time` bound of 100, is *kept* (the returned segment's
stop 200 exceeds the bound): the filter at selections.py:556-560 parses
`data_dict['start_time']` — not the `stop_time` column its docstring
names — into the variable `tstop`, so rows are excluded only when their
*start* time exceeds the bound. -/
theorem read_csv_stop_filter_wrong_column :
    read_csv requiredKeys [[cellStart, cellStop, cellFom, cellDisc]]
        none (some 100) true none
      = some [⟨0, 200, 5, "selected", none, none⟩] ∧
      ¬((200 : ℤ) ≤ 100) := by
  decide

/-- C8 counter-evidence: reading with `header = True` and a declared
header `[start_time, stop_time]` that misses the required columns `fom`
and `discussion` returns normally (the empty segment list for a file with
no data rows) instead of raising: selections.py:542 constructs
`ValueError('Header does not contain some required keys.')` but never
raises it. -/
theorem read_csv_missing_columns_silent :
    read_csv [startTimeKey, stopTimeKey] [] none none true none
        = some [] ∧
      fomKey ∉ [startTimeKey, stopTimeKey] ∧
      discussionKey ∉ [startTimeKey, stopTimeKey] := by
  refine ⟨rfl, by decide, by decide⟩

end Pymms
